import Mathlib

/-!
Verification of the SCA_control instrument-acquisition scripts.

The repository drives two bench instruments over VISA:
  * src/TEK_TBS1000C_connection.py — Tektronix TBS1000C oscilloscope:
    binary curve decoding (function get_waveform) and a batch capture driver.
  * src/RIGOL_DSA832_connection.py — Rigol DSA832 spectrum analyzer:
    an ASCII trace acquisition script with block-header stripping,
    frequency read-back with fallback, and linspace axis generation.

Byte buffers are modelled as List Nat (one entry per byte, values 0..255);
instrument reply strings as List Char; float arithmetic as exact rationals.
-/

namespace SCAControl

/-! ## Byte-level helpers -/

/-- A byte is an ASCII decimal digit, i.e. Python int(chr(b)) succeeds
on a single byte exactly when 48 ≤ b ≤ 57. -/
def isAsciiDigit (b : Nat) : Prop := 48 ≤ b ∧ b ≤ 57

instance (b : Nat) : Decidable (isAsciiDigit b) := by
  unfold isAsciiDigit; infer_instance

/-- Interpretation of a 16-bit word as a signed integer, as numpy dtype
int16 does (two's complement). -/
def toSigned16 (v : Nat) : Int :=
  if v < 32768 then (v : Int) else (v : Int) - 65536

/-- Big-endian two-byte encoding of a signed 16-bit sample; used only to
STATE round-trip claims about buffers built from known samples. -/
def encode16 (s : Int) : List Nat :=
  [((s % 65536).toNat) / 256, ((s % 65536).toNat) % 256]

/-- Concatenated big-endian encodings of a sample list. -/
def samplesToBytes : List Int → List Nat
  | [] => []
  | s :: rest => encode16 s ++ samplesToBytes rest

/-- numpy.frombuffer with dtype big-endian i2: consume the bytes two at a
time, most significant first.  (The caller guards the even-length
requirement; on a trailing odd byte this returns the pairs seen so far,
but decode nevers reaches that case.) -/
def decodeBE16 : List Nat → List Int
  | b0 :: b1 :: rest => toSigned16 (b0 * 256 + b1) :: decodeBE16 rest
  | _ => []

/-! ## Oscilloscope binary curve decode
Embeds src/TEK_TBS1000C_connection.py, get_waveform lines 150–155. -/

/-- Lines 150–152 of get_waveform: header_len = 2 + int(chr(raw_data[1]));
wave_data = raw_data[header_len:-1].  Reading raw_data[1] needs at least
two bytes (IndexError otherwise) and int(chr ...) needs an ASCII digit
(ValueError otherwise); both exceptions make get_waveform return None,
modelled as none. -/
def tekSlicePayload (raw : List Nat) : Option (List Nat) :=
  match raw with
  | _ :: d :: _ =>
    if isAsciiDigit d then
      some ((raw.drop (2 + (d - 48))).dropLast)
    else none
  | _ => none

/-- Line 155: np.frombuffer(wave_data, dtype big-endian i2).  frombuffer
raises ValueError when the buffer size is not a multiple of the 2-byte
element size; the surrounding except turns that into None. -/
def tekDecodeCurve (raw : List Nat) : Option (List Int) :=
  match tekSlicePayload raw with
  | none => none
  | some wave =>
    if wave.length % 2 = 0 then some (decodeBE16 wave) else none

/-! ## Round-trip lemmas for C1 -/

lemma toSigned16_encode (s : Int) (h1 : -32768 ≤ s) (h2 : s ≤ 32767) :
    toSigned16 (((s % 65536).toNat) / 256 * 256 + ((s % 65536).toNat) % 256) = s := by
  have hdm : ((s % 65536).toNat) / 256 * 256 + ((s % 65536).toNat) % 256
      = (s % 65536).toNat := by
    have := Nat.div_add_mod ((s % 65536).toNat) 256
    omega
  rw [hdm]
  unfold toSigned16
  split <;> omega

lemma decodeBE16_samplesToBytes (ss : List Int)
    (h : ∀ s ∈ ss, -32768 ≤ s ∧ s ≤ 32767) :
    decodeBE16 (samplesToBytes ss) = ss := by
  induction ss with
  | nil => rfl
  | cons s rest ih =>
    have hs := h s (List.mem_cons_self s rest)
    have hrest : ∀ x ∈ rest, -32768 ≤ x ∧ x ≤ 32767 := by
      intro x hx; exact h x (List.mem_cons_of_mem s hx)
    show decodeBE16 (encode16 s ++ samplesToBytes rest) = s :: rest
    rw [encode16]
    show toSigned16 _ :: decodeBE16 (samplesToBytes rest) = s :: rest
    rw [ih hrest, toSigned16_encode s hs.1 hs.2]

lemma samplesToBytes_length (ss : List Int) :
    (samplesToBytes ss).length = 2 * ss.length := by
  induction ss with
  | nil => rfl
  | cons s rest ih =>
    simp only [samplesToBytes, encode16, List.length_append, List.length_cons,
      List.length_nil, ih]
    omega

/-- Value of a big-endian ASCII decimal digit string, as Python int(...)
computes it on digit-only input. -/
def digitsToNat (ds : List Nat) : Nat :=
  ds.foldl (fun a d => a * 10 + (d - 48)) 0

/-- Shared structural fact: on a well-formed block — marker, count digit
48 + n, an n-byte length field, payload, one trailing byte — lines
150–152 slice out exactly the payload. -/
lemma tekSlicePayload_wellFormed (n term : Nat) (header payload : List Nat)
    (hn9 : n ≤ 9) (hlen : header.length = n) :
    tekSlicePayload (35 :: (48 + n) :: (header ++ payload ++ [term]))
      = some payload := by
  have hd : isAsciiDigit (48 + n) := by unfold isAsciiDigit; omega
  show (if isAsciiDigit (48 + n) then
      some (((35 :: (48 + n) :: (header ++ payload ++ [term])).drop
        (2 + (48 + n - 48))).dropLast)
    else none) = some payload
  rw [if_pos hd]
  have hdrop : (35 :: (48 + n) :: (header ++ payload ++ [term])).drop
      (2 + (48 + n - 48)) = payload ++ [term] := by
    have h48 : 48 + n - 48 = n := by omega
    rw [h48]
    show ((35 :: (48 + n) :: (header ++ payload ++ [term])).drop
      (2 + n)) = payload ++ [term]
    have : (2 + n) = (35 :: (48 + n) :: header).length := by
      simp [List.length_cons, hlen]; omega
    rw [show (35 :: (48 + n) :: (header ++ payload ++ [term]))
          = (35 :: (48 + n) :: header) ++ (payload ++ [term]) by simp,
        this, List.drop_left]
  rw [hdrop]
  simp [List.dropLast_concat]

/-- C1: a binary payload built as marker 35, one count digit, that many
length digits, N big-endian signed 16-bit samples, and one trailing
terminator byte is decoded by get_waveform's binary-mode decode back to
exactly the N original samples. -/
theorem C1_binary_roundtrip (ss : List Int) (n term : Nat) (lds : List Nat)
    (hn1 : 1 ≤ n) (hn9 : n ≤ 9)
    (hlen : lds.length = n)
    (hdig : ∀ b ∈ lds, isAsciiDigit b)
    (hval : digitsToNat lds = 2 * ss.length)
    (hs : ∀ s ∈ ss, -32768 ≤ s ∧ s ≤ 32767) :
    tekDecodeCurve (35 :: (48 + n) :: (lds ++ samplesToBytes ss ++ [term]))
      = some ss := by
  have hslice := tekSlicePayload_wellFormed n term lds (samplesToBytes ss) hn9 hlen
  have heven : (samplesToBytes ss).length % 2 = 0 := by
    rw [samplesToBytes_length]; omega
  unfold tekDecodeCurve
  rw [hslice]
  show (if (samplesToBytes ss).length % 2 = 0 then
      some (decodeBE16 (samplesToBytes ss)) else none) = some ss
  rw [if_pos heven, decodeBE16_samplesToBytes ss hs]

/-- Witness for C1 at a concrete input: samples [1, -1], count digit 1,
length field the single digit 4 = 2·2, terminator byte 10. -/
theorem C1_binary_roundtrip_witness :
    tekDecodeCurve (35 :: (48 + 1) :: ([52] ++ samplesToBytes [1, -1] ++ [10]))
      = some [1, -1] :=
  C1_binary_roundtrip [1, -1] 1 10 [52] (by decide) (by decide) (by decide)
    (by decide) (by decide) (by decide)

/-! ## Scaling and full waveform assembly
Embeds src/TEK_TBS1000C_connection.py, get_waveform lines 156–163. -/

/-- Line 158: voltage_data = ((adc_wave - yoff) * ymult) + yzero,
per sample. -/
def scaleSample (ymult yoff yzero a : ℚ) : ℚ := ((a - yoff) * ymult) + yzero

/-- get_waveform after the preamble fields are parsed: decode the curve
buffer (lines 150–155), scale to volts (line 158), and build the time
axis np.arange(0, points) * xincr + xzero (line 161).  Any exception in
between makes the Python function return None (line 167), modelled as
none.  Note the number of time samples comes from preamble field 6 while
the number of voltage samples comes from the buffer alone. -/
def get_waveform (points : Nat) (xincr xzero ymult yoff yzero : ℚ)
    (raw : List Nat) : Option (List ℚ × List ℚ) :=
  match tekDecodeCurve raw with
  | none => none
  | some adc =>
      some ((List.range points).map (fun (i : Nat) => (i : ℚ) * xincr + xzero),
            adc.map (fun (a : Int) => scaleSample ymult yoff yzero (a : ℚ)))

/-- C2: scaling is the affine map physical = (raw - offset) * multiplier
+ zero_reference, and the quoted instance: multiplier 2, offset 100,
zero 5 send raw 150 to 105. -/
theorem C2_linear_scaling :
    (∀ ymult yoff yzero a : ℚ,
        scaleSample ymult yoff yzero a = (a - yoff) * ymult + yzero)
    ∧ scaleSample 2 100 5 150 = 105 := by
  constructor
  · intro ymult yoff yzero a; rfl
  · norm_num [scaleSample]

/-- C3 counterexample: the preamble declares 2 points but the curve
buffer 35, 49, 50, 0, 1, 10 holds a single 16-bit sample; get_waveform
nevertheless returns a trace (time axis of 2 points, voltage axis of 1)
— no LengthMismatch failure exists in the code. -/
theorem C3_counterexample :
    get_waveform 2 1 0 1 0 0 [35, 49, 50, 0, 1, 10]
      = some ([0, 1], [1]) := by
  have hdec : tekDecodeCurve [35, 49, 50, 0, 1, 10] = some [1] := by decide
  unfold get_waveform
  rw [hdec]
  norm_num [List.range_succ, scaleSample]

/-- C3 as amended: get_waveform performs no declared-versus-decoded
length validation; whenever the buffer decodes at all it produces a
trace whose time axis has the preamble-declared length and whose voltage
axis has the decoded length, even when the two differ. -/
theorem C3_amended (points : Nat) (xincr xzero ymult yoff yzero : ℚ)
    (raw : List Nat) (adc : List Int)
    (h : tekDecodeCurve raw = some adc) :
    ∃ t v, get_waveform points xincr xzero ymult yoff yzero raw = some (t, v)
      ∧ t.length = points ∧ v.length = adc.length := by
  unfold get_waveform
  rw [h]
  refine ⟨(List.range points).map (fun (i : Nat) => (i : ℚ) * xincr + xzero),
    adc.map (fun (a : Int) => scaleSample ymult yoff yzero (a : ℚ)), rfl, ?_, ?_⟩
  · rw [List.length_map, List.length_range]
  · rw [List.length_map]

/-- Witness for C3: a mismatched concrete capture (declared 4 points,
1 decoded sample) still yields a trace. -/
theorem C3_amended_witness :
    ∃ t v, get_waveform 4 1 0 1 0 0 [35, 49, 50, 0, 7, 10] = some (t, v)
      ∧ t.length = 4 ∧ v.length = 1 :=
  C3_amended 4 1 0 1 0 0 [35, 49, 50, 0, 7, 10] [7] (by decide)

lemma decodeBE16_length : ∀ bs : List Nat,
    (decodeBE16 bs).length = bs.length / 2
  | [] => rfl
  | [b] => by
      show ([] : List Int).length = [b].length / 2
      norm_num
  | b0 :: b1 :: rest => by
      show (toSigned16 (b0 * 256 + b1) :: decodeBE16 rest).length
        = (b0 :: b1 :: rest).length / 2
      simp only [List.length_cons, decodeBE16_length rest]
      omega

/-- C10 counterexample: the buffer 35, 49, 52, 0, 1, 0, 2 (marker,
count digit 1, length digit 4, two samples, NO terminator) does not
"silently lose its last payload byte": the sliced 3 bytes are not a
multiple of the element width, np.frombuffer raises, and the decode
fails — while the claim's formula predicts a successful decode of
(7 - 3 - 1) / 2 = 1 sample. -/
theorem C10_counterexample :
    tekDecodeCurve [35, 49, 52, 0, 1, 0, 2] = none
      ∧ (([35, 49, 52, 0, 1, 0, 2] : List Nat).length - (2 + 1) - 1) / 2 = 1 := by
  constructor
  · decide
  · decide

/-- C10 as amended: the decode always discards the final buffer byte and
ignores the preamble count; when the remaining slice length
L - (2 + n) - 1 is even, exactly (L - (2 + n) - 1) / 2 samples are
decoded, and when it is odd (as for a full sample payload with no
trailing terminator) the decode fails rather than silently dropping a
payload byte. -/
theorem C10_amended (b0 d : Nat) (rest : List Nat) (hd : isAsciiDigit d) :
    (((b0 :: d :: rest).length - (2 + (d - 48)) - 1) % 2 = 0 →
      ∃ adc, tekDecodeCurve (b0 :: d :: rest) = some adc
        ∧ adc.length = ((b0 :: d :: rest).length - (2 + (d - 48)) - 1) / 2)
    ∧ (((b0 :: d :: rest).length - (2 + (d - 48)) - 1) % 2 = 1 →
      tekDecodeCurve (b0 :: d :: rest) = none) := by
  have hslice : tekSlicePayload (b0 :: d :: rest)
      = some (((b0 :: d :: rest).drop (2 + (d - 48))).dropLast) := by
    show (if isAsciiDigit d then
        some (((b0 :: d :: rest).drop (2 + (d - 48))).dropLast)
      else none) = _
    rw [if_pos hd]
  have hlen : (((b0 :: d :: rest).drop (2 + (d - 48))).dropLast).length
      = (b0 :: d :: rest).length - (2 + (d - 48)) - 1 := by
    rw [List.length_dropLast, List.length_drop]
  constructor
  · intro he
    refine ⟨decodeBE16 (((b0 :: d :: rest).drop (2 + (d - 48))).dropLast),
      ?_, ?_⟩
    · unfold tekDecodeCurve
      rw [hslice]
      show (if (((b0 :: d :: rest).drop (2 + (d - 48))).dropLast).length % 2 = 0
          then _ else none) = _
      rw [if_pos (by rw [hlen]; exact he)]
    · rw [decodeBE16_length, hlen]
  · intro ho
    unfold tekDecodeCurve
    rw [hslice]
    show (if (((b0 :: d :: rest).drop (2 + (d - 48))).dropLast).length % 2 = 0
        then _ else none) = none
    rw [if_neg (by rw [hlen]; omega)]

/-- Witness for C10: at the concrete buffer 35, 49, 50, 0, 7, 10 the
even branch applies and yields one decoded sample. -/
theorem C10_amended_witness :
    ((([35, 49, 50, 0, 7, 10] : List Nat).length - (2 + (49 - 48)) - 1) % 2 = 0 →
      ∃ adc, tekDecodeCurve [35, 49, 50, 0, 7, 10] = some adc
        ∧ adc.length
          = (([35, 49, 50, 0, 7, 10] : List Nat).length - (2 + (49 - 48)) - 1) / 2)
    ∧ ((([35, 49, 50, 0, 7, 10] : List Nat).length - (2 + (49 - 48)) - 1) % 2 = 1 →
      tekDecodeCurve [35, 49, 50, 0, 7, 10] = none) :=
  C10_amended 35 49 [50, 0, 7, 10] (by decide)

/-! ## Spectrum analyzer frequency axis
Embeds src/RIGOL_DSA832_connection.py line 189:
frequency_values = np.linspace(start_freq, stop_freq, len(amplitude_values)).
numpy's linspace with endpoint semantics: num = 1 yields the single
point [start]; otherwise point i is start + i * (stop - start) / (num - 1). -/

def np_linspace (start stop : ℚ) (num : Nat) : List ℚ :=
  if num = 1 then [start]
  else (List.range num).map
    (fun (i : Nat) => (i : ℚ) * ((stop - start) / ((num - 1 : Nat) : ℚ)) + start)

lemma np_linspace_length (start stop : ℚ) (num : Nat) :
    (np_linspace start stop num).length = num := by
  unfold np_linspace
  split
  · simp_all
  · rw [List.length_map, List.length_range]

lemma getD_map_range (f : Nat → ℚ) (n i : Nat) (h : i < n) :
    ((List.range n).map f).getD i 0 = f i := by
  rw [List.getD_eq_getElem?_getD, List.getElem?_map, List.getElem?_range h]
  rfl

/-- C5 counterexample: at count = 1 the code does not reject the
acquisition — np.linspace(2e9, 3e9, 1) evaluates to the one-point axis
[2e9], so a trace is produced and no InvalidPointCount error exists. -/
theorem C5_counterexample :
    np_linspace (2 * 10 ^ 9) (3 * 10 ^ 9) 1 = [2 * 10 ^ 9] := by
  unfold np_linspace
  norm_num

/-- C5 as amended: for count ≥ 2 the axis is count evenly spaced points
from start to stop inclusive, and the quoted 5-point instance holds;
count = 1 is not rejected but yields the degenerate axis [start]. -/
theorem C5_amended :
    (∀ start stop : ℚ, ∀ num : Nat, 2 ≤ num →
      (np_linspace start stop num).length = num
      ∧ (np_linspace start stop num).getD 0 0 = start
      ∧ (np_linspace start stop num).getD (num - 1) 0 = stop
      ∧ ∀ i, i + 1 < num →
          (np_linspace start stop num).getD (i + 1) 0
            - (np_linspace start stop num).getD i 0
            = (stop - start) / ((num - 1 : Nat) : ℚ))
    ∧ np_linspace (2 * 10 ^ 9) (3 * 10 ^ 9) 5
        = [2 * 10 ^ 9, 225 * 10 ^ 7, 25 * 10 ^ 8, 275 * 10 ^ 7, 3 * 10 ^ 9]
    ∧ np_linspace (2 * 10 ^ 9) (3 * 10 ^ 9) 1 = [2 * 10 ^ 9] := by
  refine ⟨?_, ?_, ?_⟩
  · intro start stop num hnum
    have hne : num ≠ 1 := by omega
    have hcast : ((num - 1 : Nat) : ℚ) ≠ 0 := by
      have : (1 : Nat) ≤ num - 1 := by omega
      exact_mod_cast Nat.pos_iff_ne_zero.mp (by omega)
    have heq : np_linspace start stop num = (List.range num).map
        (fun (i : Nat) => (i : ℚ) * ((stop - start) / ((num - 1 : Nat) : ℚ)) + start) := by
      unfold np_linspace
      rw [if_neg hne]
    refine ⟨np_linspace_length start stop num, ?_, ?_, ?_⟩
    · rw [heq, getD_map_range _ num 0 (by omega)]
      norm_num
    · rw [heq, getD_map_range _ num (num - 1) (by omega)]
      have h2 : ((num : ℚ) - 1) ≠ 0 :=
        sub_ne_zero.mpr (by exact_mod_cast (by omega : num ≠ 1))
      field_simp
    · intro i hi
      rw [heq, getD_map_range _ num (i + 1) hi,
        getD_map_range _ num i (by omega)]
      push_cast
      ring
  · unfold np_linspace
    norm_num [List.range_succ]
  · unfold np_linspace
    norm_num

/-- Witness for C5: the even-spacing clause at start 0, stop 4,
count 5 gives first gap (4 - 0) / 4. -/
theorem C5_amended_witness :
    (np_linspace 0 4 5).getD 1 0 - (np_linspace 0 4 5).getD 0 0
      = (4 - 0) / ((5 - 1 : Nat) : ℚ) :=
  (C5_amended.1 0 4 5 (by norm_num)).2.2.2 0 (by norm_num)

/-! ## Spectrum analyzer ASCII block header
Embeds src/RIGOL_DSA832_connection.py lines 161–177: the reply string is
stripped, a leading # block header (count digit, that many length
digits) is consumed, and the remainder is stripped again.  The declared
length value is parsed (int raises on a malformed or empty length field,
a fatal error modelled as none) but never used to slice. -/

/-- A character is an ASCII decimal digit. -/
def isDigitChar (c : Char) : Prop := 48 ≤ c.toNat ∧ c.toNat ≤ 57

instance (c : Char) : Decidable (isDigitChar c) := by
  unfold isDigitChar; infer_instance

/-- The whitespace Python str.strip removes (the forms that occur in
instrument replies). -/
def isSpaceChar (c : Char) : Bool :=
  c = ' ' || c = '\t' || c = '\n' || c = '\r'

/-- Python str.strip(): drop whitespace from both ends. -/
def pyStrip (s : List Char) : List Char :=
  ((s.dropWhile isSpaceChar).reverse.dropWhile isSpaceChar).reverse

/-- Lines 164–177.  On a string starting with the marker: read the count
digit (trace_str[1]; a one-character string has no index 1, modelled as
none), parse trace_str[2:2+n] with int (empty or non-digit field raises,
modelled as none; the parsed value data_length is never used), then take
everything from index 2+n on and strip; a final strip (line 177) is
applied on every path. -/
def rigolStripHeader (s : List Char) : Option (List Char) :=
  match s with
  | c :: d :: rest =>
    if c = '#' then
      if isDigitChar d then
        let lds := rest.take (d.toNat - 48)
        if lds.isEmpty then none
        else if lds.all (fun ch => decide (isDigitChar ch)) then
          some (pyStrip (pyStrip (rest.drop (d.toNat - 48))))
        else none
      else none
    else some (pyStrip s)
  | [c] => if c = '#' then none else some (pyStrip [c])
  | [] => some (pyStrip [])

lemma dropWhile_space_eq_self (l : List Char)
    (h : ∀ c ∈ l.head?, isSpaceChar c = false) :
    l.dropWhile isSpaceChar = l := by
  cases l with
  | nil => rfl
  | cons a t =>
    have ha : isSpaceChar a = false := h a (by simp)
    simp [List.dropWhile_cons, ha]

lemma pyStrip_eq_self (l : List Char)
    (h1 : ∀ c ∈ l.head?, isSpaceChar c = false)
    (h2 : ∀ c ∈ l.getLast?, isSpaceChar c = false) :
    pyStrip l = l := by
  unfold pyStrip
  rw [dropWhile_space_eq_self l h1,
    dropWhile_space_eq_self l.reverse (by rw [List.head?_reverse]; exact h2),
    List.reverse_reverse]

lemma pyStrip_append_space (l : List Char) (t : Char)
    (ht : isSpaceChar t = true)
    (h1 : ∀ c ∈ l.head?, isSpaceChar c = false)
    (h2 : ∀ c ∈ l.getLast?, isSpaceChar c = false) :
    pyStrip (l ++ [t]) = l := by
  cases l with
  | nil => simp [pyStrip, List.dropWhile_cons, ht]
  | cons a l2 =>
    unfold pyStrip
    have ha : isSpaceChar a = false := h1 a (by simp)
    rw [List.cons_append, List.dropWhile_cons, ha]
    simp only [Bool.false_eq_true, if_false]
    rw [show a :: (l2 ++ [t]) = (a :: l2) ++ [t] from rfl,
      List.reverse_append, List.reverse_singleton, List.singleton_append,
      List.dropWhile_cons, ht]
    simp only [if_true]
    rw [dropWhile_space_eq_self (a :: l2).reverse
        (by rw [List.head?_reverse]; exact h2),
      List.reverse_reverse]

/-- C4: on a well-formed block — marker, count digit n, n length digits
encoding the payload byte length, the payload, a trailing terminator —
both decoders consume the 2 + n header bytes and slice out exactly the
payload, with the terminator ignored (dropped by the oscilloscope's
[header:-1] slice, stripped by the analyzer's .strip()). -/
theorem C4_block_header (n term : Nat) (lds payload : List Nat)
    (dC tC : Char) (ldsC payloadC : List Char)
    (hn1 : 1 ≤ n) (hn9 : n ≤ 9) (hlen : lds.length = n)
    (hdig : ∀ b ∈ lds, isAsciiDigit b)
    (hval : digitsToNat lds = payload.length)
    (hdC : isDigitChar dC) (hnC : dC.toNat - 48 = n)
    (hlenC : ldsC.length = n) (hdigC : ∀ c ∈ ldsC, isDigitChar c)
    (htC : isSpaceChar tC = true)
    (hhead : ∀ c ∈ payloadC.head?, isSpaceChar c = false)
    (hlast : ∀ c ∈ payloadC.getLast?, isSpaceChar c = false) :
    tekSlicePayload (35 :: (48 + n) :: (lds ++ payload ++ [term])) = some payload
    ∧ rigolStripHeader ('#' :: dC :: (ldsC ++ (payloadC ++ [tC])))
        = some payloadC := by
  constructor
  · exact tekSlicePayload_wellFormed n term lds payload hn9 hlen
  · show (if ('#' : Char) = '#' then
        if isDigitChar dC then
          let lds2 := (ldsC ++ (payloadC ++ [tC])).take (dC.toNat - 48)
          if lds2.isEmpty then none
          else if lds2.all (fun ch => decide (isDigitChar ch)) then
            some (pyStrip (pyStrip ((ldsC ++ (payloadC ++ [tC])).drop
              (dC.toNat - 48))))
          else none
        else none
      else some (pyStrip ('#' :: dC :: (ldsC ++ (payloadC ++ [tC])))))
      = some payloadC
    rw [if_pos rfl, if_pos hdC]
    have htake : (ldsC ++ (payloadC ++ [tC])).take (dC.toNat - 48) = ldsC := by
      rw [hnC, ← hlenC, List.take_left]
    have hdrop : (ldsC ++ (payloadC ++ [tC])).drop (dC.toNat - 48)
        = payloadC ++ [tC] := by
      rw [hnC, ← hlenC, List.drop_left]
    simp only [htake, hdrop]
    have hne : ldsC.isEmpty = false := by
      cases ldsC with
      | nil => simp at hlenC; omega
      | cons a t => rfl
    rw [hne]
    simp only [Bool.false_eq_true, if_false]
    have hall : ldsC.all (fun ch => decide (isDigitChar ch)) = true := by
      rw [List.all_eq_true]
      intro c hc
      exact decide_eq_true (hdigC c hc)
    rw [hall]
    simp only [if_true]
    rw [pyStrip_append_space payloadC tC htC hhead hlast,
      pyStrip_eq_self payloadC hhead hlast]

/-- Witness for C4 at a concrete block: byte side marker 35, count digit
49, length digit 51 = byte 3, payload 7, 8, 9, terminator 10; char side
marker #, count digit 1, length digit 3, payload abc, terminator
newline. -/
theorem C4_block_header_witness :
    tekSlicePayload (35 :: (48 + 1) :: ([51] ++ [7, 8, 9] ++ [10]))
        = some [7, 8, 9]
    ∧ rigolStripHeader ('#' :: '1' :: (['3'] ++ (['a', 'b', 'c'] ++ ['\n'])))
        = some ['a', 'b', 'c'] :=
  C4_block_header 1 10 [51] [7, 8, 9] '1' '\n' ['3'] ['a', 'b', 'c']
    (by decide) (by decide) (by decide) (by decide) (by decide) (by decide)
    (by decide) (by decide) (by decide) (by decide)
    (by intro c hc; simp only [List.head?, Option.mem_def,
      Option.some.injEq] at hc; subst hc; decide)
    (by intro c hc; simp only [List.getLast?, List.getLast,
      Option.mem_def, Option.some.injEq] at hc; subst hc; decide)

/-! ## Trace assembly and axis alignment -/

/-- Lines 182–189 of the analyzer script: the frequency axis is built
with np.linspace over len(amplitude_values), so the spectrum trace is
the pair of that axis with the parsed amplitudes. -/
def rigolTrace (start stop : ℚ) (amplitude : List ℚ) : List ℚ × List ℚ :=
  (np_linspace start stop amplitude.length, amplitude)

/-- C6 counterexample: get_waveform with a preamble declaring 3 points
but a buffer holding one sample returns a physical trace whose time and
voltage axes have different lengths (3 versus 1). -/
theorem C6_counterexample :
    get_waveform 3 1 0 1 0 0 [35, 49, 50, 0, 2, 10] = some ([0, 1, 2], [2])
      ∧ ([0, 1, 2] : List ℚ).length ≠ ([2] : List ℚ).length := by
  constructor
  · have hdec : tekDecodeCurve [35, 49, 50, 0, 2, 10] = some [2] := by decide
    unfold get_waveform
    rw [hdec]
    norm_num [List.range_succ, scaleSample]
  · decide

/-- C6 as amended: the spectrum trace always has aligned axes, because
the frequency axis is generated from the amplitude count; the
oscilloscope trace has aligned axes exactly when the preamble-declared
point count equals the decoded sample count, which the code never
checks. -/
theorem C6_amended :
    (∀ start stop : ℚ, ∀ amplitude : List ℚ,
      (rigolTrace start stop amplitude).1.length
        = (rigolTrace start stop amplitude).2.length)
    ∧ (∀ (points : Nat) (xincr xzero ymult yoff yzero : ℚ)
        (raw : List Nat) (adc : List Int) (t v : List ℚ),
        tekDecodeCurve raw = some adc →
        get_waveform points xincr xzero ymult yoff yzero raw = some (t, v) →
        (t.length = v.length ↔ points = adc.length)) := by
  constructor
  · intro start stop amplitude
    exact np_linspace_length start stop amplitude.length
  · intro points xincr xzero ymult yoff yzero raw adc t v hdec hw
    unfold get_waveform at hw
    rw [hdec] at hw
    have hpair := Option.some.inj hw
    have ht : t = (List.range points).map
        (fun (i : Nat) => (i : ℚ) * xincr + xzero) := (Prod.mk.inj hpair.symm).1
    have hv : v = adc.map
        (fun (a : Int) => scaleSample ymult yoff yzero (a : ℚ)) :=
      (Prod.mk.inj hpair.symm).2
    rw [ht, hv, List.length_map, List.length_map, List.length_range]

/-- Witness for C6 at a concrete mismatched capture: declared 2 points,
one decoded sample, so alignment is equivalent to the false 2 = 1. -/
theorem C6_amended_witness :
    (([0, 1] : List ℚ).length = ([9] : List ℚ).length
      ↔ 2 = ([9] : List Int).length) :=
  C6_amended.2 2 1 0 1 0 0 [35, 49, 50, 0, 9, 10] [9] [0, 1] [9]
    (by decide)
    (by
      have hdec : tekDecodeCurve [35, 49, 50, 0, 9, 10] = some [9] := by decide
      unfold get_waveform
      rw [hdec]
      norm_num [List.range_succ, scaleSample])

/-! ## Session control flow
The analyzer script (src/RIGOL_DSA832_connection.py lines 66–227) runs
one acquisition inside try / except / finally; the oscilloscope script
(src/TEK_TBS1000C_connection.py lines 202–294) runs a batch with no
try around its body.  The models below record, for each choice of
step outcomes, whether the session was opened, whether it was closed
before the program finished, whether the continuous-sweep restore write
(line 218) ran, and whether the try body completed. -/

/-- Lines 129–142: query start/stop; on exception fall back to
center/span and derive start = center - span/2, stop = center + span/2;
if that also raises, re-raise (fatal). -/
def readBackFrequency (ss cs : Option (ℚ × ℚ)) : Option (ℚ × ℚ) :=
  match ss with
  | some p => some p
  | none =>
    match cs with
    | some (c, s) => some (c - s / 2, c + s / 2)
    | none => none

/-- Outcomes of the analyzer run's fallible steps: whether open_resource
and the identification query succeed, the two frequency query results,
the point-count query result (line 146), and whether the trace fetch
and parse (lines 157–189) succeed. -/
structure RigolWorld where
  openOk : Bool
  startStopQuery : Option (ℚ × ℚ)
  centerSpanQuery : Option (ℚ × ℚ)
  pointsQuery : Option Nat
  fetchOk : Bool

structure RigolResult where
  opened : Bool
  closed : Bool
  restored : Bool
  completed : Bool
  numPoints : Option Nat

/-- The analyzer script's control flow: an exception anywhere in the try
body jumps to the except handler (line 220), skipping the remaining
statements — including the restore write, which is the LAST statement of
the try body (line 218); the finally block (lines 224–227) closes the
session whenever it was opened.  The point-count query failure is
non-fatal and falls back to 601 (line 149). -/
def rigolRun (w : RigolWorld) : RigolResult :=
  if w.openOk = false then
    { opened := false, closed := false, restored := false,
      completed := false, numPoints := none }
  else
    match readBackFrequency w.startStopQuery w.centerSpanQuery with
    | none =>
      { opened := true, closed := true, restored := false,
        completed := false, numPoints := none }
    | some _ =>
      if w.fetchOk then
        { opened := true, closed := true, restored := true,
          completed := true, numPoints := some (w.pointsQuery.getD 601) }
      else
        { opened := true, closed := true, restored := false,
          completed := false, numPoints := some (w.pointsQuery.getD 601) }

/-- Outcomes of the oscilloscope batch driver's fallible steps:
connect_to_tektronix catches its own exceptions and returns None, so a
failed connect just skips the body; the scale queries at lines 213–214
and the acquisition-state query inside wait_for_trigger (line 88) are
not guarded by any handler; per-capture get_waveform errors are caught
(lines 165–167) and only break the loop. -/
structure TekWorld where
  connectOk : Bool
  settingsQueryOk : Bool
  triggerWaitRaises : Bool

structure TekResult where
  opened : Bool
  closed : Bool
  crashed : Bool

/-- The oscilloscope script's control flow: scope.close() (line 284) is
the last statement of the body, with no try/finally around it, so any
unhandled exception terminates the program with the session open. -/
def tekRun (w : TekWorld) : TekResult :=
  if w.connectOk = false then
    { opened := false, closed := false, crashed := false }
  else if w.settingsQueryOk = false then
    { opened := true, closed := false, crashed := true }
  else if w.triggerWaitRaises then
    { opened := true, closed := false, crashed := true }
  else
    { opened := true, closed := true, crashed := false }

/-- C7: frequency read-back prefers start/stop, derives start/stop from
center/span when the first query fails, and when both fail the error is
fatal: the acquisition does not complete (and the finally still closes
the session). -/
theorem C7_frequency_readback :
    (∀ (p : ℚ × ℚ) (cs : Option (ℚ × ℚ)), readBackFrequency (some p) cs = some p)
    ∧ (∀ c s : ℚ, readBackFrequency none (some (c, s))
        = some (c - s / 2, c + s / 2))
    ∧ readBackFrequency none none = none
    ∧ (∀ w : RigolWorld, w.openOk = true → w.startStopQuery = none →
        w.centerSpanQuery = none →
        (rigolRun w).completed = false ∧ (rigolRun w).closed = true) := by
  refine ⟨fun p cs => rfl, fun c s => rfl, rfl, ?_⟩
  intro w hopen hss hcs
  unfold rigolRun
  rw [hopen]
  simp only [Bool.true_eq_false, if_false]
  rw [hss, hcs]
  exact ⟨rfl, rfl⟩

/-- Witness for C7: concrete start/stop pass-through, center 10 span 4
deriving 8 and 12, and a run with both queries failing that does not
complete. -/
theorem C7_frequency_readback_witness :
    readBackFrequency (some ((2 : ℚ), (3 : ℚ))) none = some (2, 3)
      ∧ readBackFrequency none (some ((10 : ℚ), (4 : ℚ))) = some (8, 12)
      ∧ (rigolRun ⟨true, none, none, some 601, true⟩).completed = false :=
  ⟨C7_frequency_readback.1 (2, 3) none,
   by rw [C7_frequency_readback.2.1 10 4]; norm_num,
   (C7_frequency_readback.2.2.2 ⟨true, none, none, some 601, true⟩
      rfl rfl rfl).1⟩

/-- C8 counterexample: in the oscilloscope script, a failing unprotected
settings query (line 213) after a successful connect terminates the
program with the session opened but never closed. -/
theorem C8_counterexample :
    (tekRun ⟨true, false, false⟩).opened = true
      ∧ (tekRun ⟨true, false, false⟩).closed = false := by
  exact ⟨rfl, rfl⟩

/-- C8 as amended: the analyzer session is closed on every exit path
(its finally block), but the oscilloscope session is closed only when
the batch body finishes without an unhandled exception. -/
theorem C8_amended :
    (∀ w : RigolWorld, (rigolRun w).opened = true → (rigolRun w).closed = true)
    ∧ (∀ tw : TekWorld, (tekRun tw).opened = true →
        (tekRun tw).crashed = false → (tekRun tw).closed = true) := by
  constructor
  · intro w hopen
    rcases w with ⟨openOk, ss, cs, pq, fetchOk⟩
    cases openOk
    · exact absurd hopen (by simp [rigolRun])
    · unfold rigolRun
      simp only [Bool.true_eq_false, if_false]
      cases readBackFrequency ss cs
      · rfl
      · cases fetchOk <;> simp
  · intro tw hopen hcrash
    rcases tw with ⟨connectOk, settingsQueryOk, triggerWaitRaises⟩
    cases connectOk
    · exact hopen
    · cases settingsQueryOk
      · exact absurd hcrash (by simp [tekRun])
      · cases triggerWaitRaises
        · rfl
        · exact absurd hcrash (by simp [tekRun])

/-- Witness for C8: a fully successful analyzer run and a fully
successful oscilloscope run both end closed. -/
theorem C8_amended_witness :
    (rigolRun ⟨true, some (2, 3), none, some 601, true⟩).closed = true
      ∧ (tekRun ⟨true, true, false⟩).closed = true :=
  ⟨C8_amended.1 ⟨true, some (2, 3), none, some 601, true⟩ rfl,
   C8_amended.2 ⟨true, true, false⟩ rfl rfl⟩

/-- C9 counterexample: a run whose trace fetch fails has the session
open at the failure point, yet the continuous-sweep restore is skipped —
the except handler bypasses line 218. -/
theorem C9_counterexample :
    (rigolRun ⟨true, some (2, 3), none, some 601, false⟩).restored = false
      ∧ (rigolRun ⟨true, some (2, 3), none, some 601, false⟩).opened = true
      ∧ (rigolRun ⟨true, some (2, 3), none, some 601, false⟩).closed = true := by
  exact ⟨rfl, rfl, rfl⟩

/-- C9 as amended: the restore write runs exactly when the whole try
body succeeds; any error before it (fatal frequency failure, fetch or
parse failure) skips the restore even though the session is still open
at that moment. -/
theorem C9_amended (w : RigolWorld) :
    (rigolRun w).restored = (rigolRun w).completed := by
  unfold rigolRun
  rcases w with ⟨openOk, ss, cs, pq, fetchOk⟩
  cases openOk
  · rfl
  · simp only [Bool.true_eq_false, if_false]
    cases readBackFrequency ss cs
    · rfl
    · cases fetchOk <;> simp

end SCAControl
